import Mathlib

/-!
Shallow embedding of the facility-overlay pipeline of `src/app.py`
(functions `load_facility_data` and `inject_facility_markers_into_html`)
together with theorems settling the specification claims.

Modelling conventions:
* Python strings are Lean `String`s; string algorithms (replace, contains,
  lower, strip) are re-implemented over `List Char` exactly following the
  semantics of the Python methods used by the code.
* Cell values of the two boolean-flag CSV columns are modelled by `PyVal`,
  which covers the value domain relevant to the code (booleans, ints,
  floats with integral value, NaN, strings, None) together with the
  fragment of Python `==` the code exercises.
* Floats for coordinates are modelled as rationals; `pandas` NaN and a
  missing cell are both `Option.none`.
-/

set_option maxRecDepth 100000

/-- Python scalar values as they appear in the flag columns of a dataframe.
`pyfloat n` stands for a float of integral value `n`; `pynan` is NaN. -/
inductive PyVal where
  | pybool : Bool → PyVal
  | pyint : Int → PyVal
  | pyfloat : Int → PyVal
  | pynan : PyVal
  | pystr : String → PyVal
  | pynone : PyVal
deriving DecidableEq, Repr

/-- Numeric value of a Python scalar, when it has one: booleans count as
0 and 1, NaN has none. -/
def pyNumVal : PyVal → Option Int
  | .pybool b => some (if b then 1 else 0)
  | .pyint n => some n
  | .pyfloat n => some n
  | _ => none

/-- Fragment of Python equality `==` used by the code: numbers (bool, int,
integral float) compare by value, NaN equals nothing, strings compare by
content, None equals only None, and cross-kind comparisons are false. -/
def pyEq (a b : PyVal) : Bool :=
  match pyNumVal a, pyNumVal b with
  | some x, some y => x == y
  | _, _ =>
    match a, b with
    | .pystr s, .pystr t => s == t
    | .pynone, .pynone => true
    | _, _ => false

/-- Flag normalization of `load_facility_data` (src/app.py lines 142-146):
the lambda `'True' if x is True or x == 1.0 or x == 1 else 'False' if
x is False or x == 0.0 or x == 0 else 'N/A'`. -/
def normalize_flag (x : PyVal) : String :=
  if x = PyVal.pybool true ∨ pyEq x (PyVal.pyfloat 1) = true ∨ pyEq x (PyVal.pyint 1) = true then
    "True"
  else if x = PyVal.pybool false ∨ pyEq x (PyVal.pyfloat 0) = true ∨ pyEq x (PyVal.pyint 0) = true then
    "False"
  else
    "N/A"

/-- Whitespace characters recognised by Python `str.strip()`. -/
def pyIsSpace (c : Char) : Bool :=
  c = ' ' ∨ c = '\t' ∨ c = '\n' ∨ c = '\r' ∨ c = '\x0b' ∨ c = '\x0c'

/-- Python `str.strip()`: drop whitespace from both ends. -/
def pyStrip (s : String) : String :=
  ⟨((s.data.dropWhile pyIsSpace).reverse.dropWhile pyIsSpace).reverse⟩

/-- Pandas `astype(str)` on a cell of an object column: a missing value
(NaN) prints as the string `nan`; a string cell stays itself. -/
def pyAstypeStr : Option String → String
  | none => "nan"
  | some s => s

/-- Decimal digit character. -/
def digitCh (n : Nat) : Char :=
  if n = 0 then '0' else if n = 1 then '1' else if n = 2 then '2'
  else if n = 3 then '3' else if n = 4 then '4' else if n = 5 then '5'
  else if n = 6 then '6' else if n = 7 then '7' else if n = 8 then '8' else '9'

/-- Decimal digits of a natural number, fuel-structured so that the kernel
can evaluate it. -/
def natDigitsAux : Nat → Nat → List Char
  | 0, _ => []
  | fuel + 1, n =>
    if n < 10 then [digitCh n]
    else natDigitsAux fuel (n / 10) ++ [digitCh (n % 10)]

/-- Decimal digits of a natural number. -/
def natDigitsChars (n : Nat) : List Char := natDigitsAux (n + 1) n

/-- Python `str(i)` for an integer `i`. -/
def intRepr (i : Int) : String :=
  if i < 0 then ⟨'-' :: natDigitsChars i.natAbs⟩ else ⟨natDigitsChars i.natAbs⟩

/-- Python `s.endswith('.0')`. -/
def endsWithDot0 (l : List Char) : Bool :=
  l.reverse.take 2 == ['0', '.']

/-- Value of a list of decimal digit characters. -/
def digitsToNat (l : List Char) : Nat :=
  l.foldl (fun acc c => acc * 10 + (c.toNat - 48)) 0

/-- Python `int(float(t ++ ".0"))` for the text `t` in front of the
`.0` suffix: an optional sign followed by (possibly zero) digits, as
accepted by Python `float`; anything else raises `ValueError`. -/
def parseSignedDigits (l : List Char) : Option Int :=
  match l with
  | '-' :: rest => if rest.all Char.isDigit then some (-(digitsToNat rest : Int)) else none
  | '+' :: rest => if rest.all Char.isDigit then some (digitsToNat rest : Int) else none
  | _ => if l.all Char.isDigit then some (digitsToNat l : Int) else none

/-- Zip cleaning of `load_facility_data` (src/app.py lines 133-136):
`astype(str).str.strip()` followed by the lambda
`str(int(float(x))) if pd.notnull(x) and str(x).endswith('.0') else str(x)`.
After `astype(str)` the cell is always a non-null string, so `pd.notnull`
is always true; a `.0`-suffixed value that `float` cannot parse raises,
which makes the whole file be skipped. -/
def cleanZip (z : Option String) : Except String String :=
  let s := pyStrip (pyAstypeStr z)
  if endsWithDot0 s.data then
    match parseSignedDigits (s.data.dropLast.dropLast) with
    | some i => .ok (intRepr i)
    | none => .error "ValueError"
  else
    .ok s

/-- One CSV row restricted to the required columns. Numeric CSV cells of
the text columns appear through their pandas string rendering; `none`
models a missing value (NaN). -/
structure Row where
  npi : String
  groupName : Option String
  streetAddress : Option String
  city : Option String
  state : Option String
  zip : Option String
  latitude : Option ℚ
  longitude : Option ℚ
  flagSubstanceAbuse : PyVal
  flagSudClinic : PyVal
deriving DecidableEq, Repr

/-- A CSV file: its name, its header, and its rows. `columns` is the
header of the file as read by pandas. -/
structure CSVFile where
  name : String
  columns : List String
  rows : List Row
deriving DecidableEq, Repr

/-- Cleaned facility record, one row of the combined dataframe returned
by `load_facility_data`. -/
structure FacilityRecord where
  npi : String
  groupName : String
  streetAddress : String
  city : String
  state : String
  zip : String
  latitude : ℚ
  longitude : ℚ
  flagSubstanceAbuse : String
  flagSudClinic : String
  source_file : String
deriving DecidableEq, Repr

/-- Required columns (src/app.py line 100). -/
def required_columns : List String :=
  ["NPI", "Group Name", "Street Address", "City", "State", "Zip",
   "Latitude", "Longitude", "is_substance_abuse_rehab", "is_sud_rehab_clinic"]

/-- The columns of `required_columns` absent from a file
(src/app.py line 111). -/
def missingCols (f : CSVFile) : List String :=
  required_columns.filter (fun c => !(f.columns.contains c))

/-- Row filter of `dropna(subset=['Group Name', 'Latitude', 'Longitude'])`
(src/app.py line 121). -/
def dropnaKeep (r : Row) : Bool :=
  r.groupName.isSome && r.latitude.isSome && r.longitude.isSome

/-- Row filter of the coordinate-range selection, pandas `between` being
inclusive on both ends (src/app.py lines 122-125). -/
def coordsInRange (r : Row) : Bool :=
  match r.latitude, r.longitude with
  | some la, some lo =>
      decide (-90 ≤ la) && decide (la ≤ 90) && decide (-180 ≤ lo) && decide (lo ≤ 180)
  | _, _ => false

/-- Rows of a file surviving the dropna and coordinate-range filters. -/
def keptRows (f : CSVFile) : List Row :=
  (f.rows.filter dropnaKeep).filter coordsInRange

/-- Text-column cleaning `astype(str).str.strip()`
(src/app.py lines 128-130). -/
def cleanText (o : Option String) : String :=
  pyStrip (pyAstypeStr o)

/-- Per-row cleaning of `load_facility_data` applied to a retained row:
text trimming, zip normalization (which can raise), flag normalization,
and provenance tagging (src/app.py lines 118, 128-146). -/
def cleanRow (fname : String) (r : Row) : Except String FacilityRecord := do
  let zip ← cleanZip r.zip
  pure {
    npi := r.npi
    groupName := cleanText r.groupName
    streetAddress := cleanText r.streetAddress
    city := cleanText r.city
    state := cleanText r.state
    zip := zip
    latitude := r.latitude.getD 0
    longitude := r.longitude.getD 0
    flagSubstanceAbuse := normalize_flag r.flagSubstanceAbuse
    flagSudClinic := normalize_flag r.flagSudClinic
    source_file := fname }

/-- Effectful map over a list, stopping at the first error; this is how a
raising pandas `apply` behaves on a column. -/
def mapExcept {α β : Type} (f : α → Except String β) : List α → Except String (List β)
  | [] => .ok []
  | a :: l =>
    match f a with
    | .error e => .error e
    | .ok b =>
      match mapExcept f l with
      | .error e => .error e
      | .ok bs => .ok (b :: bs)

/-- Result of cleaning the retained rows of a file; an error here stands
for an exception raised while processing the file. -/
def rowsResult (f : CSVFile) : Except String (List FacilityRecord) :=
  mapExcept (cleanRow f.name) (keptRows f)

/-- Per-file step of `load_facility_data` (src/app.py lines 105-153): a
file missing a required column is skipped with a warning; a file whose
processing raises is skipped with a warning; otherwise its cleaned rows
are contributed. The second component is the list of warnings, identified
by the file name. -/
def processFile (f : CSVFile) : List FacilityRecord × List String :=
  if (missingCols f).isEmpty then
    match rowsResult f with
    | .ok recs => (recs, [])
    | .error _ => ([], [f.name])
  else
    ([], [f.name])

/-- The function `load_facility_data` (src/app.py lines 86-162) on a list
of CSV files: the ordered concatenation of the per-file contributions,
together with the warnings. An empty record list models the `None`
result. -/
def load_facility_data : List CSVFile → List FacilityRecord × List String
  | [] => ([], [])
  | f :: rest =>
    let p := processFile f
    let q := load_facility_data rest
    (p.1 ++ q.1, p.2 ++ q.2)

/-- List concatenation, defined through `List.rec` so that the kernel
evaluates it lazily in shallow stack; equal to `List.append`
(`appendL_eq`). -/
def appendL (a b : List Char) : List Char :=
  List.rec b (fun c _ ih => c :: ih) a

theorem appendL_eq (a b : List Char) : appendL a b = a ++ b := by
  induction a with
  | nil => rfl
  | cons c cs ih => simpa [appendL] using congrArg (c :: ·) ih

/-- String concatenation through `appendL`; equal to `String.append`
(`strCat_eq`), used where the kernel must evaluate long documents. -/
def strCat (a b : String) : String := ⟨appendL a.data b.data⟩

theorem strCat_eq (a b : String) : strCat a b = a ++ b := by
  cases a; cases b; simp [strCat, appendL_eq, String.data]; rfl

/-- Python `str.replace` scan (non-overlapping, left to right). The
`Nat` argument counts characters of a previous match still to be
skipped. Defined through `List.rec` so that the kernel evaluates it
lazily in constant stack; its defining equations are proved below by
`rfl`. Only used with non-empty patterns. -/
def replaceGo (pat rep : List Char) (l : List Char) : Nat → List Char :=
  List.rec (motive := fun _ => Nat → List Char)
    (fun _ => [])
    (fun c cs ih skip =>
      Nat.casesOn skip
        (if pat.isPrefixOf (c :: cs) then appendL rep (ih (pat.length - 1)) else c :: ih 0)
        (fun k => ih k))
    l

theorem replaceGo_nil (pat rep : List Char) (k : Nat) :
    replaceGo pat rep [] k = [] := rfl

theorem replaceGo_skip (pat rep : List Char) (c : Char) (cs : List Char) (k : Nat) :
    replaceGo pat rep (c :: cs) (k + 1) = replaceGo pat rep cs k := rfl

theorem replaceGo_scan (pat rep : List Char) (c : Char) (cs : List Char) :
    replaceGo pat rep (c :: cs) 0 =
      if pat.isPrefixOf (c :: cs) then rep ++ replaceGo pat rep cs (pat.length - 1)
      else c :: replaceGo pat rep cs 0 := by
  show (if pat.isPrefixOf (c :: cs) then appendL rep (replaceGo pat rep cs (pat.length - 1))
        else c :: replaceGo pat rep cs 0) = _
  rw [appendL_eq]

/-- Python `s.replace(pat, rep)` for a non-empty pattern. -/
def pyReplace (s pat rep : String) : String :=
  ⟨replaceGo pat.data rep.data s.data 0⟩

/-- Number of non-overlapping occurrences of `pat`, scanning left to
right with a skip counter like `replaceGo`; `acc` accumulates. -/
def countGo (pat : List Char) (l : List Char) : Nat → Nat → Nat :=
  List.rec (motive := fun _ => Nat → Nat → Nat)
    (fun _ acc => acc)
    (fun c cs ih skip acc =>
      Nat.casesOn skip
        (if pat.isPrefixOf (c :: cs) then ih (pat.length - 1) (acc + 1) else ih 0 acc)
        (fun k => ih k acc))
    l

theorem countGo_nil (pat : List Char) (k acc : Nat) :
    countGo pat [] k acc = acc := rfl

theorem countGo_skip (pat : List Char) (c : Char) (cs : List Char) (k acc : Nat) :
    countGo pat (c :: cs) (k + 1) acc = countGo pat cs k acc := rfl

theorem countGo_scan (pat : List Char) (c : Char) (cs : List Char) (acc : Nat) :
    countGo pat (c :: cs) 0 acc =
      if pat.isPrefixOf (c :: cs) then countGo pat cs (pat.length - 1) (acc + 1)
      else countGo pat cs 0 acc := rfl

/-- Number of non-overlapping occurrences of `pat` inside `s`, Python
`s.count(pat)`. -/
def countSubstr (pat s : String) : Nat := countGo pat.data s.data 0 0

/-- Substring test over character lists, Python `pat in s`. -/
def containsL (pat : List Char) (l : List Char) : Bool :=
  List.rec pat.isEmpty (fun c cs ih => pat.isPrefixOf (c :: cs) || ih) l

theorem containsL_nil (pat : List Char) : containsL pat [] = pat.isEmpty := rfl

theorem containsL_cons (pat : List Char) (c : Char) (cs : List Char) :
    containsL pat (c :: cs) = (pat.isPrefixOf (c :: cs) || containsL pat cs) := rfl

/-- Python `pat in s` on strings. -/
def containsSub (s pat : String) : Bool := containsL pat.data s.data

/-- ASCII lower-casing of one character; the needles the code lower-cases
against are ASCII, so this is the relevant fragment of Python `lower`. -/
def charLower (c : Char) : Char :=
  if 'A' ≤ c ∧ c ≤ 'Z' then Char.ofNat (c.toNat + 32) else c

/-- Python `s.lower()` (ASCII fragment), a lazily evaluating `List.map`. -/
def pyLower (s : String) : String :=
  ⟨List.rec [] (fun c _ ih => charLower c :: ih) s.data⟩

/-- Zero-padded fixed-width decimal rendering of `v` on `k` digits. -/
def padDigits (v : Nat) : Nat → List Char
  | 0 => []
  | k + 1 => padDigits (v / 10) k ++ [digitCh (v % 10)]

/-- Smallest positive `k ≤ 17` with `den ∣ 10 ^ k`, when one exists: the
decimal exponent needed to print a decimally-exact rational. -/
def decExp (den : Nat) : Option Nat :=
  (List.range 18).find? (fun k => decide (0 < k) && (10 ^ k % den == 0))

/-- Python `str(x)` for a float `x`, modelled on rationals: integral
values print as `n.0` and decimally-exact values print their shortest
decimal expansion, matching the Python repr of floats that are exact in
decimal (the values occurring in the CSVs); other rationals, which have
no exact float counterpart, are approximated. -/
def floatRepr (q : ℚ) : String :=
  if q.den = 1 then intRepr q.num ++ ".0"
  else
    match decExp q.den with
    | some k =>
      let m := q.num.natAbs * (10 ^ k / q.den)
      let sign : List Char := if q.num < 0 then ['-'] else []
      ⟨sign ++ natDigitsChars (m / 10 ^ k) ++ '.' :: padDigits (m % 10 ^ k) k⟩
    | none => intRepr (Int.fdiv q.num q.den) ++ ".0"

/-- Python `f"{x:.4f}"` on rationals: four fixed decimals, rounding to
the nearest (ties away from the even-rounding of binary floats only on
exact half-way values, which the claims do not exercise). -/
def format4f (q : ℚ) : String :=
  let s : Int := Int.fdiv (2 * (q.num * 10000) + (q.den : Int)) (2 * (q.den : Int))
  let a := s.natAbs
  let sign : List Char := if s < 0 then ['-'] else []
  ⟨sign ++ natDigitsChars (a / 10000) ++ '.' :: padDigits (a % 10000) 4⟩

/-- Marker border color (src/app.py line 237). -/
def marker_color : String := "#000000"

/-- Fill color of a facility marker from its two flag strings
(src/app.py lines 219-234). -/
def fill_color (f : FacilityRecord) : String :=
  if f.flagSubstanceAbuse = "True" ∧ f.flagSudClinic = "True" then "#800080"
  else if f.flagSubstanceAbuse = "True" then "#FF0000"
  else if f.flagSudClinic = "True" then "#0000FF"
  else "#808080"

/-- Category label of a facility from its two flag strings
(src/app.py lines 219-234). -/
def facility_type_desc (f : FacilityRecord) : String :=
  if f.flagSubstanceAbuse = "True" ∧ f.flagSudClinic = "True" then
    "Substance Abuse Rehab & SUD Rehab Clinic"
  else if f.flagSubstanceAbuse = "True" then "Substance Abuse Rehab"
  else if f.flagSudClinic = "True" then "SUD Rehab Clinic"
  else "Other/Unknown"

/-- Popup template of a facility before escaping (src/app.py lines
249-260). All fields are present in a cleaned record, so the `N/A`
defaults of `facility.get` and the NaN guards never fire. The
concatenation is right-nested to keep kernel evaluation shallow. -/
def popupTemplate (f : FacilityRecord) : String :=
  strCat "\n        <b>NPI:</b> " (strCat f.npi (strCat "<br>\n        <b>Facility Name:</b> "
  (strCat f.groupName (strCat "<br>\n        <b>Facility Type:</b> "
  (strCat (facility_type_desc f) (strCat "<br>\n        <b>Street Address:</b> "
  (strCat f.streetAddress (strCat "<br>\n        <b>City:</b> "
  (strCat f.city (strCat "<br>\n        <b>State:</b> "
  (strCat f.state (strCat "<br>\n        <b>Zip:</b> "
  (strCat f.zip (strCat "<br>\n        <b>Coordinates:</b> "
  (strCat (format4f f.latitude) (strCat ", " (strCat (format4f f.longitude)
  (strCat "<br>\n        <br>\n        <b>is_substance_abuse_rehab:</b> "
  (strCat f.flagSubstanceAbuse (strCat "<br>\n        <b>is_sud_rehab_clinic:</b> "
  (strCat f.flagSudClinic "<br>\n        ")))))))))))))))))))))

/-- Escaped popup string (src/app.py line 261):
`popup.replace('"', '\\"').replace('\n', '\\n')`. -/
def popup_html (f : FacilityRecord) : String :=
  pyReplace (pyReplace (popupTemplate f) "\"" "\\\"") "\n" "\\n"

/-- Plugin-loading block (src/app.py lines 175-190), appended only when
`markercluster.css` is absent from the lower-cased document. -/
def clusterPluginBlock : String :=
  "\n        // Add MarkerCluster CSS and JS\n        var clusterCSS = document.createElement(\x27link\x27);\n        clusterCSS.rel = \x27stylesheet\x27;\n        clusterCSS.href = \x27https://unpkg.com/leaflet.markercluster@1.4.1/dist/MarkerCluster.css\x27;\n        document.head.appendChild(clusterCSS);\n        \n        var clusterDefaultCSS = document.createElement(\x27link\x27);\n        clusterDefaultCSS.rel = \x27stylesheet\x27;\n        clusterDefaultCSS.href = \x27https://unpkg.com/leaflet.markercluster@1.4.1/dist/MarkerCluster.Default.css\x27;\n        document.head.appendChild(clusterDefaultCSS);\n        \n        var clusterJS = document.createElement(\x27script\x27);\n        clusterJS.src = \x27https://unpkg.com/leaflet.markercluster@1.4.1/dist/leaflet.markercluster.js\x27;\n        document.head.appendChild(clusterJS);\n        "

/-- Cluster-opening block (src/app.py lines 193-210). -/
def clusterOpenBlock : String :=
  "\n        // Wait for the map to be fully loaded\n        setTimeout(function() \x7b\n            // Find the map object (folium creates global map variables)\n            var mapObj = window[Object.keys(window).find(key => key.startsWith(\x27map_\x27))];\n            \n            if (mapObj) \x7b\n                // Create marker cluster group\n                var facilityCluster = L.markerClusterGroup(\x7b\n                    showCoverageOnHover: false,\n                    zoomToBoundsOnClick: true,\n                    spiderfyOnMaxZoom: false,\n                    removeOutsideVisibleBounds: true,\n                    disableClusteringAtZoom: 13\n                \x7d);\n                \n                // Add facility markers\n    "

/-- Per-facility marker block (src/app.py lines 263-274). `idx` is the
row index of the facility in the combined dataframe. The concatenation
is right-nested to keep kernel evaluation shallow. -/
def markerBlock (idx : Nat) (f : FacilityRecord) : String :=
  strCat "\n                var marker_" (strCat (String.mk (natDigitsChars idx))
  (strCat " = L.circleMarker([" (strCat (floatRepr f.latitude) (strCat ", " (strCat (floatRepr f.longitude)
  (strCat "], \x7b\n                    radius: 7,\n                    color: \x27"
  (strCat marker_color (strCat "\x27,\n                    weight: 2,\n                    opacity: 0.9,\n                    fillColor: \x27"
  (strCat (fill_color f) (strCat "\x27,\n                    fillOpacity: 0.7\n                \x7d).bindPopup(\""
  (strCat (popup_html f) (strCat "\", \x7bmaxWidth: 300\x7d);\n                \n                facilityCluster.addLayer(marker_"
  (strCat (String.mk (natDigitsChars idx)) ");\n        ")))))))))))))

/-- Closing block (src/app.py lines 277-297). -/
def closingBlock : String :=
  "\n                // Add cluster to map\n                mapObj.addLayer(facilityCluster);\n                \n                // Add layer control if it doesn\x27t exist\n                if (!mapObj.layerControl) \x7b\n                    var baseLayers = \x7b\x7d;\n                    var overlayLayers = \x7b\n                        \"Individual Facilities\": facilityCluster\n                    \x7d;\n                    mapObj.layerControl = L.control.layers(baseLayers, overlayLayers).addTo(mapObj);\n                \x7d else \x7b\n                    // Check if \"Individual Facilities\" overlay already exists to avoid duplication on rerun\n                    var existingOverlays = mapObj.layerControl._layers.filter(layer => layer.overlay).map(layer => layer.name);\n                    if (!existingOverlays.includes(\"Individual Facilities\")) \x7b\n                        mapObj.layerControl.addOverlay(facilityCluster, \"Individual Facilities\");\n                    \x7d\n                \x7d\n            \x7d\n        \x7d, 1000);\n    "

/-- Python `'\n'.join`, right-nested. -/
def joinNl : List String → String
  | [] => ""
  | [s] => s
  | s :: rest => strCat s (strCat "\n" (joinNl rest))

/-- Marker blocks of a facility list, indexed like `iterrows` over the
combined dataframe (which is `ignore_index` re-numbered, so indices are
positions). -/
def markerBlocks (fs : List FacilityRecord) : List String :=
  fs.enum.map (fun p => markerBlock p.1 p.2)

/-- The `<script>` element the renderer builds for a document and a
non-empty facility list (src/app.py lines 169-303). -/
def script_tag_for (original_html : String) (fs : List FacilityRecord) : String :=
  let parts1 : List String :=
    if containsSub (pyLower original_html) "markercluster.css" then [] else [clusterPluginBlock]
  let parts := parts1 ++ [clusterOpenBlock] ++ markerBlocks fs ++ [closingBlock]
  strCat "<script>" (strCat (joinNl parts) "</script>")

/-- The function `inject_facility_markers_into_html` (src/app.py lines
164-312): `None` or an empty collection returns the document unchanged;
otherwise the script element is inserted before every `</body>` (Python
`replace` replaces all occurrences), or appended when the document has
none. -/
def inject_facility_markers_into_html (original_html : String)
    (facilities_df : Option (List FacilityRecord)) : String :=
  match facilities_df with
  | none => original_html
  | some fs =>
    if fs.isEmpty then original_html
    else
      let script_tag := script_tag_for original_html fs
      if containsSub original_html "</body>" then
        pyReplace original_html "</body>" (strCat script_tag "\n</body>")
      else
        strCat original_html script_tag

/-! ### Helper lemmas about the loader -/

theorem mapExcept_ok_mem {α β : Type} (g : α → Except String β) :
    ∀ (l : List α) (out : List β), mapExcept g l = Except.ok out →
      ∀ b ∈ out, ∃ a ∈ l, g a = Except.ok b := by
  intro l
  induction l with
  | nil =>
    intro out h b hb
    simp only [mapExcept, Except.ok.injEq] at h
    subst h
    simp at hb
  | cons a t ih =>
    intro out h b hb
    simp only [mapExcept] at h
    cases hga : g a with
    | error e => rw [hga] at h; cases h
    | ok v =>
      rw [hga] at h
      cases hmt : mapExcept g t with
      | error e => rw [hmt] at h; cases h
      | ok vs =>
        rw [hmt] at h
        cases h
        rcases List.mem_cons.mp hb with hb1 | hb2
        · exact ⟨a, List.mem_cons_self a t, by rw [hga, hb1]⟩
        · rcases ih vs hmt b hb2 with ⟨x, hx, hgx⟩
          exact ⟨x, List.mem_cons_of_mem a hx, hgx⟩

theorem cleanRow_ok (fname : String) (r : Row) (rec : FacilityRecord)
    (h : cleanRow fname r = Except.ok rec) :
    ∃ z, cleanZip r.zip = Except.ok z ∧
      rec = { npi := r.npi, groupName := cleanText r.groupName,
              streetAddress := cleanText r.streetAddress, city := cleanText r.city,
              state := cleanText r.state, zip := z,
              latitude := r.latitude.getD 0, longitude := r.longitude.getD 0,
              flagSubstanceAbuse := normalize_flag r.flagSubstanceAbuse,
              flagSudClinic := normalize_flag r.flagSudClinic,
              source_file := fname } := by
  cases hz : cleanZip r.zip with
  | error e =>
    exfalso
    simp only [cleanRow, bind, Except.bind, hz] at h
    cases h
  | ok z =>
    refine ⟨z, rfl, ?_⟩
    simp only [cleanRow, bind, Except.bind, hz, pure, Except.pure, Except.ok.injEq] at h
    exact h.symm

theorem mem_processFile (f : CSVFile) (r : FacilityRecord)
    (h : r ∈ (processFile f).1) :
    ∃ row, row ∈ f.rows ∧ dropnaKeep row = true ∧ coordsInRange row = true ∧
      cleanRow f.name row = Except.ok r := by
  unfold processFile at h
  by_cases hm : (missingCols f).isEmpty
  · rw [if_pos hm] at h
    cases hr : rowsResult f with
    | error e => rw [hr] at h; simp at h
    | ok recs =>
      rw [hr] at h
      simp only at h
      rcases mapExcept_ok_mem (cleanRow f.name) (keptRows f) recs hr r h with ⟨row, hrow, hclean⟩
      have h1 := (List.mem_filter).mp hrow
      have h2 := (List.mem_filter).mp h1.1
      exact ⟨row, h2.1, h2.2, h1.2, hclean⟩
  · rw [if_neg hm] at h
    simp at h

theorem mem_load (files : List CSVFile) (r : FacilityRecord)
    (h : r ∈ (load_facility_data files).1) :
    ∃ f ∈ files, r ∈ (processFile f).1 := by
  induction files with
  | nil => simp [load_facility_data] at h
  | cons f rest ih =>
    simp only [load_facility_data] at h
    rcases (List.mem_append).mp h with h1 | h2
    · exact ⟨f, List.mem_cons_self f rest, h1⟩
    · rcases ih h2 with ⟨g, hg, hr⟩
      exact ⟨g, List.mem_cons_of_mem f hg, hr⟩

/-! ### Common concrete inputs used by witnesses -/

/-- Concrete valid CSV row. -/
def rowW : Row :=
  { npi := "123", groupName := some "Clinic A", streetAddress := some "1 Main St",
    city := some "Springfield", state := some "IL", zip := some "62701",
    latitude := some 40, longitude := some (-89),
    flagSubstanceAbuse := PyVal.pyint 1, flagSudClinic := PyVal.pyint 0 }

/-- Concrete CSV file holding `rowW`. -/
def fileW : CSVFile :=
  { name := "fileA.csv", columns := required_columns, rows := [rowW] }

/-- The record the loader produces from `rowW`. -/
def recW : FacilityRecord :=
  { npi := "123", groupName := "Clinic A", streetAddress := "1 Main St",
    city := "Springfield", state := "IL", zip := "62701",
    latitude := 40, longitude := -89,
    flagSubstanceAbuse := "True", flagSudClinic := "False",
    source_file := "fileA.csv" }

/-! ### C1: flag normalization -/

/-- C1, counterexample: the loader maps the literal `True` to the string
`True`, not to `true`, and a missing value to `N/A`, not to `unknown`;
the claimed output alphabet `true`, `false`, `unknown` is not the one of
the code. -/
theorem flag_norm_literal_counterexample :
    normalize_flag (PyVal.pybool true) ≠ "true" ∧
    normalize_flag (PyVal.pybool false) ≠ "false" ∧
    normalize_flag PyVal.pynone ≠ "unknown" := by
  refine ⟨?_, ?_, ?_⟩ <;> decide

/-- C1, amended: the normalization maps literal true/1/1.0 to the string
`True`, literal false/0/0.0 to `False`, and any other value of the domain
(empty string, NaN, None, `maybe`) to `N/A`; it is total with this
three-string codomain, and both flag columns of every retained record
carry one of the three strings. -/
theorem flag_norm_amended :
    (normalize_flag (PyVal.pybool true) = "True" ∧ normalize_flag (PyVal.pyint 1) = "True" ∧
     normalize_flag (PyVal.pyfloat 1) = "True") ∧
    (normalize_flag (PyVal.pybool false) = "False" ∧ normalize_flag (PyVal.pyint 0) = "False" ∧
     normalize_flag (PyVal.pyfloat 0) = "False") ∧
    (normalize_flag (PyVal.pystr "") = "N/A" ∧ normalize_flag PyVal.pynan = "N/A" ∧
     normalize_flag PyVal.pynone = "N/A" ∧ normalize_flag (PyVal.pystr "maybe") = "N/A") ∧
    (∀ x : PyVal, normalize_flag x = "True" ∨ normalize_flag x = "False" ∨
      normalize_flag x = "N/A") ∧
    (∀ (files : List CSVFile) (r : FacilityRecord), r ∈ (load_facility_data files).1 →
      r.flagSubstanceAbuse ∈ ["True", "False", "N/A"] ∧
      r.flagSudClinic ∈ ["True", "False", "N/A"]) := by
  have htot : ∀ x : PyVal, normalize_flag x = "True" ∨ normalize_flag x = "False" ∨
      normalize_flag x = "N/A" := by
    intro x
    unfold normalize_flag
    split
    · exact Or.inl rfl
    · split
      · exact Or.inr (Or.inl rfl)
      · exact Or.inr (Or.inr rfl)
  refine ⟨by refine ⟨?_, ?_, ?_⟩ <;> decide, by refine ⟨?_, ?_, ?_⟩ <;> decide,
    by refine ⟨?_, ?_, ?_, ?_⟩ <;> decide, htot, ?_⟩
  intro files r h
  rcases mem_load files r h with ⟨f, _, hr⟩
  rcases mem_processFile f r hr with ⟨row, _, _, _, hclean⟩
  rcases cleanRow_ok _ _ _ hclean with ⟨z, _, hrec⟩
  have h1 : r.flagSubstanceAbuse = normalize_flag row.flagSubstanceAbuse := by rw [hrec]
  have h2 : r.flagSudClinic = normalize_flag row.flagSudClinic := by rw [hrec]
  constructor
  · rw [h1]; rcases htot row.flagSubstanceAbuse with h | h | h <;> simp [h]
  · rw [h2]; rcases htot row.flagSudClinic with h | h | h <;> simp [h]

/-- C1 witness: the loader output of a concrete file has its flags inside
the three-string codomain. -/
theorem flag_norm_amended_check :
    recW ∈ (load_facility_data [fileW]).1 ∧
    recW.flagSubstanceAbuse ∈ ["True", "False", "N/A"] ∧
    recW.flagSudClinic ∈ ["True", "False", "N/A"] :=
  ⟨by decide, (flag_norm_amended.2.2.2.2 [fileW] recW (by decide)).1,
    (flag_norm_amended.2.2.2.2 [fileW] recW (by decide)).2⟩

/-! ### C3: retained records have valid, present coordinates -/

/-- C3: every record in the loader output has coordinates inside
[-90, 90] x [-180, 180], and stems from a source row whose name,
latitude and longitude are all present; a row with missing or
out-of-range coordinates never reaches the output. -/
theorem loader_retained_rows_valid_coords
    (files : List CSVFile) (r : FacilityRecord)
    (h : r ∈ (load_facility_data files).1) :
    ((-90 : ℚ) ≤ r.latitude ∧ r.latitude ≤ 90 ∧
     (-180 : ℚ) ≤ r.longitude ∧ r.longitude ≤ 180) ∧
    ∃ f ∈ files, ∃ row ∈ f.rows, row.groupName.isSome = true ∧
      row.latitude = some r.latitude ∧ row.longitude = some r.longitude := by
  rcases mem_load files r h with ⟨f, hf, hr⟩
  rcases mem_processFile f r hr with ⟨row, hrow, hdrop, hrange, hclean⟩
  rcases cleanRow_ok _ _ _ hclean with ⟨z, _, hrec⟩
  simp only [dropnaKeep, Bool.and_eq_true] at hdrop
  obtain ⟨⟨hgn, hlat⟩, hlon⟩ := hdrop
  rcases Option.isSome_iff_exists.mp hlat with ⟨la, hla⟩
  rcases Option.isSome_iff_exists.mp hlon with ⟨lo, hlo⟩
  have hrlat : r.latitude = la := by rw [hrec]; simp [hla]
  have hrlon : r.longitude = lo := by rw [hrec]; simp [hlo]
  unfold coordsInRange at hrange
  rw [hla, hlo] at hrange
  simp only [Bool.and_eq_true, decide_eq_true_eq] at hrange
  obtain ⟨⟨⟨h1, h2⟩, h3⟩, h4⟩ := hrange
  rw [hrlat, hrlon]
  exact ⟨⟨h1, h2, h3, h4⟩, f, hf, row, hrow, hgn, by rw [hla], by rw [hlo]⟩

/-- C3 witness: the concrete record retained from `fileW` satisfies the
coordinate invariant. -/
theorem loader_retained_rows_valid_coords_check :
    recW ∈ (load_facility_data [fileW]).1 ∧
    (((-90 : ℚ) ≤ recW.latitude ∧ recW.latitude ≤ 90 ∧
      (-180 : ℚ) ≤ recW.longitude ∧ recW.longitude ≤ 180) ∧
     ∃ f ∈ [fileW], ∃ row ∈ f.rows, row.groupName.isSome = true ∧
       row.latitude = some recW.latitude ∧ row.longitude = some recW.longitude) :=
  ⟨by decide, loader_retained_rows_valid_coords [fileW] recW (by decide)⟩

/-! ### C4: per-file isolation of failures -/

/-- C4: a file missing a required column (here the postal-code column
`Zip`) contributes zero records and exactly one warning; the same holds
for a file whose processing raises; and the loader result over three
files is the concatenation of the per-file contributions, so two healthy
files with 10 and 5 records give a 15-record collection regardless of
the bad file. -/
theorem loader_file_isolation (f g h : CSVFile)
    (hf : "Zip" ∉ f.columns)
    (hg : (processFile g).1.length = 10)
    (hh : (processFile h).1.length = 5) :
    (processFile f).1 = [] ∧ (processFile f).2 = [f.name] ∧
    (load_facility_data [f, g, h]).1.length = 15 ∧
    (∀ f' : CSVFile,
      ((missingCols f').isEmpty = false ∨ ∃ e, rowsResult f' = Except.error e) →
      (processFile f').1 = [] ∧ (processFile f').2 = [f'.name]) := by
  have hzip : "Zip" ∈ missingCols f := by
    unfold missingCols
    refine (List.mem_filter).mpr ⟨by decide, ?_⟩
    simp only [Bool.not_eq_true']
    cases hc : f.columns.contains "Zip"
    · rfl
    · exact absurd (List.mem_of_elem_eq_true hc) hf
  have hne : (missingCols f).isEmpty = false := by
    cases hmc : missingCols f
    · rw [hmc] at hzip; simp at hzip
    · rfl
  have hskip : ∀ f' : CSVFile,
      ((missingCols f').isEmpty = false ∨ ∃ e, rowsResult f' = Except.error e) →
      (processFile f').1 = [] ∧ (processFile f').2 = [f'.name] := by
    intro f' hcase
    unfold processFile
    by_cases hm : (missingCols f').isEmpty
    · rw [if_pos hm]
      rcases hcase with hbad | ⟨e, he⟩
      · rw [hm] at hbad; cases hbad
      · rw [he]; exact ⟨rfl, rfl⟩
    · rw [if_neg hm]; exact ⟨rfl, rfl⟩
  have hfz := hskip f (Or.inl hne)
  refine ⟨hfz.1, hfz.2, ?_, hskip⟩
  show ((processFile f).1 ++ ((processFile g).1 ++ ((processFile h).1 ++ []))).length = 15
  rw [hfz.1]
  simp [hg, hh]

/-- Concrete file without the `Zip` column. -/
def fileNoZip : CSVFile :=
  { name := "bad.csv",
    columns := ["NPI", "Group Name", "Street Address", "City", "State",
                "Latitude", "Longitude", "is_substance_abuse_rehab", "is_sud_rehab_clinic"],
    rows := [rowW] }

/-- Concrete file contributing ten records. -/
def fileTen : CSVFile :=
  { name := "ten.csv", columns := required_columns, rows := List.replicate 10 rowW }

/-- Concrete file contributing five records. -/
def fileFive : CSVFile :=
  { name := "five.csv", columns := required_columns, rows := List.replicate 5 rowW }

/-- C4 witness: with the concrete bad file and the 10- and 5-record
files, the collection has exactly 15 records and the bad file is skipped
with one warning. -/
theorem loader_file_isolation_check :
    ("Zip" ∉ fileNoZip.columns ∧ (processFile fileTen).1.length = 10 ∧
     (processFile fileFive).1.length = 5) ∧
    ((processFile fileNoZip).1 = [] ∧ (processFile fileNoZip).2 = [fileNoZip.name] ∧
     (load_facility_data [fileNoZip, fileTen, fileFive]).1.length = 15 ∧
     (∀ f' : CSVFile,
       ((missingCols f').isEmpty = false ∨ ∃ e, rowsResult f' = Except.error e) →
       (processFile f').1 = [] ∧ (processFile f').2 = [f'.name])) :=
  ⟨⟨by decide, by decide, by decide⟩,
    loader_file_isolation fileNoZip fileTen fileFive (by decide) (by decide) (by decide)⟩

/-! ### C8: postal-code cleaning -/

theorem natDigitsAux_all_digits (fuel : Nat) :
    ∀ (n : Nat) (c : Char), c ∈ natDigitsAux fuel n → ∃ m, c = digitCh m := by
  induction fuel with
  | zero => intro n c h; simp [natDigitsAux] at h
  | succ fuel ih =>
    intro n c h
    unfold natDigitsAux at h
    by_cases h10 : n < 10
    · rw [if_pos h10] at h
      simp at h
      exact ⟨n, h⟩
    · rw [if_neg h10] at h
      rcases (List.mem_append).mp h with h1 | h2
      · exact ih _ c h1
      · simp at h2
        exact ⟨n % 10, h2⟩

theorem digitCh_ne_dot (m : Nat) : digitCh m ≠ '.' := by
  unfold digitCh
  split_ifs <;> decide

theorem intRepr_no_dot (i : Int) (c : Char) (h : c ∈ (intRepr i).data) : c ≠ '.' := by
  unfold intRepr at h
  by_cases hneg : i < 0
  · rw [if_pos hneg] at h
    rcases List.mem_cons.mp h with h1 | h2
    · rw [h1]; decide
    · rcases natDigitsAux_all_digits _ _ _ h2 with ⟨m, hm⟩
      rw [hm]; exact digitCh_ne_dot m
  · rw [if_neg hneg] at h
    rcases natDigitsAux_all_digits _ _ _ h with ⟨m, hm⟩
    rw [hm]; exact digitCh_ne_dot m

theorem no_dot_not_endsWithDot0 (l : List Char) (h : '.' ∉ l) : endsWithDot0 l = false := by
  have hne : l.reverse.take 2 ≠ ['0', '.'] := by
    intro heq
    have hmem : '.' ∈ l.reverse.take 2 := by rw [heq]; simp
    exact h ((List.mem_reverse).mp (List.mem_of_mem_take hmem))
  unfold endsWithDot0
  simpa using hne

theorem cleanZip_ok_no_dot0 (z : Option String) (t : String)
    (h : cleanZip z = Except.ok t) : endsWithDot0 t.data = false := by
  unfold cleanZip at h
  by_cases hd : endsWithDot0 (pyStrip (pyAstypeStr z)).data
  · rw [if_pos hd] at h
    cases hp : parseSignedDigits ((pyStrip (pyAstypeStr z)).data.dropLast.dropLast) with
    | none => rw [hp] at h; cases h
    | some i =>
      rw [hp] at h
      cases h
      exact no_dot_not_endsWithDot0 _ (fun hc => intRepr_no_dot i '.' hc rfl)
  · rw [if_neg hd] at h
    cases h
    exact Bool.eq_false_iff.mpr hd

/-- C8, amended: the zip column of every retained record never ends with
the `.0` artifact. A value ending in `.0` that parses as a float is
replaced by the plain digits of its integer part, and any other value
passes through trimmed, so the output need not be all digits (a missing
cell, for example, becomes the string `nan`). -/
theorem zip_no_dot0_amended (files : List CSVFile) (r : FacilityRecord)
    (h : r ∈ (load_facility_data files).1) :
    endsWithDot0 r.zip.data = false ∧
    (∀ (z : Option String) (t : String), cleanZip z = Except.ok t →
      endsWithDot0 t.data = false) := by
  refine ⟨?_, fun z t hzt => cleanZip_ok_no_dot0 z t hzt⟩
  rcases mem_load files r h with ⟨f, _, hr⟩
  rcases mem_processFile f r hr with ⟨row, _, _, _, hclean⟩
  rcases cleanRow_ok _ _ _ hclean with ⟨z, hz, hrec⟩
  have : r.zip = z := by rw [hrec]
  rw [this]
  exact cleanZip_ok_no_dot0 _ _ hz

/-- C8 witness: the zip of the concrete retained record carries no `.0`
artifact. -/
theorem zip_no_dot0_amended_check :
    recW ∈ (load_facility_data [fileW]).1 ∧
    endsWithDot0 recW.zip.data = false ∧
    cleanZip (some "12345.0") = Except.ok "12345" :=
  ⟨by decide, (zip_no_dot0_amended [fileW] recW (by decide)).1, by rfl⟩

/-- Concrete row with a non-numeric postal code. -/
def rowZ : Row :=
  { npi := "9", groupName := some "Clinic B", streetAddress := some "2 Oak St",
    city := some "Dover", state := some "DE", zip := some "ABC",
    latitude := some 39, longitude := some (-75),
    flagSubstanceAbuse := PyVal.pyint 0, flagSudClinic := PyVal.pyint 0 }

/-- Concrete row with a missing postal code. -/
def rowZn : Row :=
  { npi := "10", groupName := some "Clinic C", streetAddress := some "3 Elm St",
    city := some "Dover", state := some "DE", zip := none,
    latitude := some 39, longitude := some (-75),
    flagSubstanceAbuse := PyVal.pyint 0, flagSudClinic := PyVal.pyint 0 }

/-- Concrete file whose rows carry a non-numeric and a missing zip. -/
def fileZ : CSVFile :=
  { name := "z.csv", columns := required_columns, rows := [rowZ, rowZn] }

/-- C8, counterexample: two retained records whose zip output is `ABC`
and `nan` respectively, neither a bare digit string; the claim that every
retained postal code is a bare digit string fails on string and missing
inputs. -/
theorem zip_digitstring_counterexample :
    ((load_facility_data [fileZ]).1.map FacilityRecord.zip) = ["ABC", "nan"] ∧
    ("ABC".data.all Char.isDigit) = false ∧
    ("nan".data.all Char.isDigit) = false := by
  refine ⟨by decide, by decide, by decide⟩

/-! ### C5 and C10: marker classification -/

/-- C5: classification is mutually exclusive with BOTH taking precedence:
a record whose two flags carry the true-normalization is labelled as both
types (never as one of the single types), and a record normalized from
raw flags 1 and 0 is labelled Substance Abuse Rehab with the red fill
constant. -/
theorem classification_precedence (f : FacilityRecord) :
    (f.flagSubstanceAbuse = "True" → f.flagSudClinic = "True" →
      facility_type_desc f = "Substance Abuse Rehab & SUD Rehab Clinic" ∧
      facility_type_desc f ≠ "Substance Abuse Rehab" ∧
      facility_type_desc f ≠ "SUD Rehab Clinic" ∧
      fill_color f = "#800080") ∧
    (f.flagSubstanceAbuse = normalize_flag (PyVal.pyint 1) →
     f.flagSudClinic = normalize_flag (PyVal.pyint 0) →
      facility_type_desc f = "Substance Abuse Rehab" ∧ fill_color f = "#FF0000") := by
  constructor
  · intro h1 h2
    unfold facility_type_desc fill_color
    rw [if_pos ⟨h1, h2⟩, if_pos ⟨h1, h2⟩]
    exact ⟨rfl, by decide, by decide, rfl⟩
  · intro h1 h2
    have e1 : normalize_flag (PyVal.pyint 1) = "True" := by decide
    have e0 : normalize_flag (PyVal.pyint 0) = "False" := by decide
    rw [e1] at h1
    rw [e0] at h2
    have hns : f.flagSudClinic ≠ "True" := by rw [h2]; decide
    unfold facility_type_desc fill_color
    rw [if_neg (fun hc => hns hc.2), if_pos h1, if_neg (fun hc => hns hc.2), if_pos h1]
    exact ⟨rfl, rfl⟩

/-- Concrete record with both flags normalized true. -/
def recB : FacilityRecord :=
  { npi := "7", groupName := "Clinic D", streetAddress := "4 Pine St",
    city := "Reno", state := "NV", zip := "89501",
    latitude := 39, longitude := -119,
    flagSubstanceAbuse := "True", flagSudClinic := "True",
    source_file := "fileB.csv" }

/-- C5 witness: the both-flags record is labelled BOTH and the 1/0 record
is labelled Substance Abuse Rehab in red. -/
theorem classification_precedence_check :
    (facility_type_desc recB = "Substance Abuse Rehab & SUD Rehab Clinic" ∧
     facility_type_desc recB ≠ "Substance Abuse Rehab" ∧
     facility_type_desc recB ≠ "SUD Rehab Clinic" ∧
     fill_color recB = "#800080") ∧
    (facility_type_desc recW = "Substance Abuse Rehab" ∧ fill_color recW = "#FF0000") :=
  ⟨(classification_precedence recB).1 rfl rfl,
   (classification_precedence recW).2 (by decide) (by decide)⟩

/-- C10: the classification is total on arbitrary flag strings, and any
record whose flags are not both exactly the string `True` falls to the
gray OTHER/UNKNOWN category whenever neither flag is exactly `True`. -/
theorem classification_default_other (f : FacilityRecord)
    (h1 : f.flagSubstanceAbuse ≠ "True") (h2 : f.flagSudClinic ≠ "True") :
    fill_color f = "#808080" ∧ facility_type_desc f = "Other/Unknown" := by
  unfold fill_color facility_type_desc
  rw [if_neg (fun hc => h1 hc.1), if_neg h1, if_neg h2,
      if_neg (fun hc => h1 hc.1), if_neg h1, if_neg h2]
  exact ⟨rfl, rfl⟩

/-- Concrete record with unnormalized flag strings. -/
def recU : FacilityRecord :=
  { npi := "8", groupName := "Clinic E", streetAddress := "5 Ash St",
    city := "Tulsa", state := "OK", zip := "74101",
    latitude := 36, longitude := -96,
    flagSubstanceAbuse := "true", flagSudClinic := "N/A",
    source_file := "fileC.csv" }

/-- C10 witness: lowercase `true` and `N/A` flags both count as false and
the record renders gray OTHER/UNKNOWN. -/
theorem classification_default_other_check :
    recU.flagSubstanceAbuse ≠ "True" ∧ recU.flagSudClinic ≠ "True" ∧
    fill_color recU = "#808080" ∧ facility_type_desc recU = "Other/Unknown" :=
  ⟨by decide, by decide, (classification_default_other recU (by decide) (by decide)).1,
   (classification_default_other recU (by decide) (by decide)).2⟩

/-! ### C7: identity on an empty collection -/

/-- C7: the renderer returns the base document unchanged when the
facility collection is absent or empty. -/
theorem renderer_empty_identity (html : String) :
    inject_facility_markers_into_html html none = html ∧
    inject_facility_markers_into_html html (some []) = html :=
  ⟨rfl, rfl⟩

/-! ### C6: popup escaping -/

/-- Scanner for the weak escaping property: every double quote in the
list is immediately preceded by a backslash character; `prev` is the
character before the current position. -/
def quotesOkFrom (prev : Char) : List Char → Bool
  | [] => true
  | c :: cs => (!(c == '"') || (prev == '\\')) && quotesOkFrom c cs

/-- Weak escaping property of a whole string (started with a neutral
previous character). -/
def quotesBackslashed (l : List Char) : Bool := quotesOkFrom ' ' l

/-- JavaScript string-literal scanner: inside a double-quoted literal, a
double quote preceded by an even run of backslashes terminates the
literal, so it is an unescaped quote; `parity` records whether the run of
backslashes immediately before the position has odd length. Returns true
when an unescaped quote occurs. -/
def unescapedQuoteScan (l : List Char) : Bool :=
  (List.rec (motive := fun _ => Bool → Bool)
    (fun _ => false)
    (fun c _ ih parity =>
      if c = '\\' then ih (!parity)
      else if c = '"' then (!parity) || ih false
      else ih false) l) false

theorem quotesOkFrom_congr (l : List Char) (p q : Char)
    (hpq : (p == '\\') = (q == '\\')) : quotesOkFrom p l = quotesOkFrom q l := by
  cases l with
  | nil => rfl
  | cons c cs => simp only [quotesOkFrom, hpq]

theorem quotes_replaceQ : ∀ (l : List Char) (prev : Char),
    quotesOkFrom prev (replaceGo ['"'] ['\\', '"'] l 0) = true := by
  intro l
  induction l with
  | nil => intro prev; rfl
  | cons c cs ih =>
    intro prev
    rw [replaceGo_scan]
    by_cases hc : c = '"'
    · subst hc
      have hp : (['"'] : List Char).isPrefixOf ('"' :: cs) = true := by
        simp [List.isPrefixOf]
      rw [if_pos hp]
      have hlen : (['"'] : List Char).length - 1 = 0 := by decide
      rw [hlen]
      show quotesOkFrom prev ('\\' :: '"' :: replaceGo ['"'] ['\\', '"'] cs 0) = true
      simp only [quotesOkFrom]
      simp only [show (('\\' : Char) == '"') = false by decide,
        show (('"' : Char) == '"') = true by decide,
        show (('\\' : Char) == '\\') = true by decide,
        Bool.not_false, Bool.true_or, Bool.or_true, Bool.true_and, Bool.not_true,
        Bool.false_or]
      exact ih '"'
    · have hp : (['"'] : List Char).isPrefixOf (c :: cs) = false := by
        simp [List.isPrefixOf]
        exact fun he => hc he.symm
      rw [if_neg (by rw [hp]; exact Bool.false_ne_true)]
      simp only [quotesOkFrom]
      have : (c == '"') = false := by
        cases hb : c == '"'
        · rfl
        · exact absurd (by simpa using hb) hc
      rw [this]
      simp only [Bool.not_false, Bool.true_or, Bool.true_and]
      exact ih c

theorem quotes_replaceN_preserve : ∀ (l : List Char) (p q : Char),
    (p == '\\') = (q == '\\') → quotesOkFrom p l = true →
    quotesOkFrom q (replaceGo ['\n'] ['\\', 'n'] l 0) = true := by
  intro l
  induction l with
  | nil => intro p q _ _; rfl
  | cons c cs ih =>
    intro p q hpq h
    simp only [quotesOkFrom, Bool.and_eq_true] at h
    obtain ⟨hA, hB⟩ := h
    rw [replaceGo_scan]
    by_cases hc : c = '\n'
    · subst hc
      have hp : (['\n'] : List Char).isPrefixOf ('\n' :: cs) = true := by
        simp [List.isPrefixOf]
      rw [if_pos hp]
      have hlen : (['\n'] : List Char).length - 1 = 0 := by decide
      rw [hlen]
      show quotesOkFrom q ('\\' :: 'n' :: replaceGo ['\n'] ['\\', 'n'] cs 0) = true
      simp only [quotesOkFrom]
      simp only [show (('\\' : Char) == '"') = false by decide,
        show (('n' : Char) == '"') = false by decide,
        Bool.not_false, Bool.true_or, Bool.true_and]
      exact ih '\n' 'n' (by decide) hB
    · have hp : (['\n'] : List Char).isPrefixOf (c :: cs) = false := by
        simp [List.isPrefixOf]
        exact fun he => hc he.symm
      rw [if_neg (by rw [hp]; exact Bool.false_ne_true)]
      simp only [quotesOkFrom]
      rw [← hpq]
      rw [Bool.and_eq_true]
      exact ⟨hA, ih c c rfl hB⟩

theorem newline_gone : ∀ l : List Char, '\n' ∉ replaceGo ['\n'] ['\\', 'n'] l 0 := by
  intro l
  induction l with
  | nil => rw [replaceGo_nil]; simp
  | cons c cs ih =>
    rw [replaceGo_scan]
    by_cases hc : c = '\n'
    · subst hc
      have hp : (['\n'] : List Char).isPrefixOf ('\n' :: cs) = true := by
        simp [List.isPrefixOf]
      rw [if_pos hp]
      have hlen : (['\n'] : List Char).length - 1 = 0 := by decide
      rw [hlen]
      intro hmem
      rcases (List.mem_append).mp hmem with h1 | h2
      · simp at h1
      · exact ih h2
    · have hp : (['\n'] : List Char).isPrefixOf (c :: cs) = false := by
        simp [List.isPrefixOf]
        exact fun he => hc he.symm
      rw [if_neg (by rw [hp]; exact Bool.false_ne_true)]
      intro hmem
      rcases List.mem_cons.mp hmem with h1 | h2
      · exact hc h1.symm
      · exact ih h2

/-- C6, amended: in the emitted popup string of any facility, no raw
newline character remains and every double quote is immediately preceded
by a backslash character. This is the property the two replace calls
actually establish; it is weaker than JavaScript-level neutralization,
because a user-supplied backslash directly before a quote produces an
even backslash run that terminates the embedded literal (see the
counterexample). -/
theorem popup_escaping_amended (f : FacilityRecord) :
    ('\n' ∉ (popup_html f).data) ∧ quotesBackslashed (popup_html f).data = true := by
  constructor
  · show '\n' ∉
      replaceGo ("\n".data) ("\\n".data) (replaceGo ("\"".data) ("\\\"".data) (popupTemplate f).data 0) 0
    exact newline_gone _
  · show quotesOkFrom ' '
      (replaceGo ("\n".data) ("\\n".data) (replaceGo ("\"".data) ("\\\"".data) (popupTemplate f).data 0) 0) = true
    exact quotes_replaceN_preserve _ ' ' ' ' rfl (quotes_replaceQ _ ' ')

/-- Concrete facility whose name carries a backslash directly before a
double quote. -/
def facEsc : FacilityRecord :=
  { npi := "1", groupName := "A\\\" B", streetAddress := "1 Main St",
    city := "Reno", state := "NV", zip := "89501",
    latitude := 40, longitude := -75,
    flagSubstanceAbuse := "True", flagSudClinic := "False",
    source_file := "f.csv" }

/-- C6, counterexample: the escaped popup of `facEsc` still contains a
double quote that the JavaScript lexer reads as unescaped (it follows an
even run of backslashes), so the quote terminates the embedded string
literal: the ad hoc replacement does not neutralize quotes preceded by
user-supplied backslashes. -/
theorem popup_escaping_counterexample :
    unescapedQuoteScan (popup_html facEsc).data = true := by rfl

/-! ### Helper lemmas about the replace and count scanners -/

theorem replaceGo_skip_drop (pat rep : List Char) :
    ∀ (l : List Char) (k : Nat), replaceGo pat rep l k = replaceGo pat rep (l.drop k) 0 := by
  intro l
  induction l with
  | nil => intro k; rw [List.drop_nil, replaceGo_nil, replaceGo_nil]
  | cons c cs ih =>
    intro k
    cases k with
    | zero => rfl
    | succ k => rw [replaceGo_skip, List.drop_succ_cons]; exact ih k

theorem countGo_skip_drop (pat : List Char) :
    ∀ (l : List Char) (k acc : Nat), countGo pat l k acc = countGo pat (l.drop k) 0 acc := by
  intro l
  induction l with
  | nil => intro k acc; rw [List.drop_nil, countGo_nil, countGo_nil]
  | cons c cs ih =>
    intro k acc
    cases k with
    | zero => rfl
    | succ k => rw [countGo_skip, List.drop_succ_cons]; exact ih k acc

theorem countGo_acc_shift (pat : List Char) :
    ∀ (l : List Char) (k acc : Nat), countGo pat l k acc = acc + countGo pat l k 0 := by
  intro l
  induction l with
  | nil => intro k acc; rw [countGo_nil, countGo_nil, Nat.add_zero]
  | cons c cs ih =>
    intro k acc
    cases k with
    | succ k => rw [countGo_skip, countGo_skip]; exact ih k acc
    | zero =>
      rw [countGo_scan, countGo_scan]
      by_cases hpre : pat.isPrefixOf (c :: cs) = true
      · rw [if_pos hpre, if_pos hpre]
        rw [ih (pat.length - 1) (acc + 1), ih (pat.length - 1) (0 + 1)]
        omega
      · rw [if_neg hpre, if_neg hpre]
        exact ih 0 acc

theorem replaceGo_of_not_contains (pat rep : List Char) :
    ∀ l : List Char, containsL pat l = false → replaceGo pat rep l 0 = l := by
  intro l
  induction l with
  | nil => intro _; rw [replaceGo_nil]
  | cons c cs ih =>
    intro h
    rw [containsL_cons, Bool.or_eq_false_iff] at h
    rw [replaceGo_scan, if_neg (by rw [h.1]; exact Bool.false_ne_true)]
    rw [ih h.2]

theorem count_zero_iff_not_contains (pat : List Char) (hp : pat ≠ []) :
    ∀ l : List Char, countGo pat l 0 0 = 0 ↔ containsL pat l = false := by
  intro l
  induction l with
  | nil =>
    rw [countGo_nil, containsL_nil]
    have : pat.isEmpty = false := by
      cases pat
      · exact absurd rfl hp
      · rfl
    rw [this]
    simp
  | cons c cs ih =>
    rw [countGo_scan, containsL_cons]
    by_cases hpre : pat.isPrefixOf (c :: cs) = true
    · rw [if_pos hpre, hpre, countGo_acc_shift, Bool.true_or]
      constructor
      · intro h; omega
      · intro h; cases h
    · have hfalse : pat.isPrefixOf (c :: cs) = false := Bool.eq_false_iff.mpr hpre
      rw [if_neg hpre, hfalse, Bool.false_or]
      exact ih

theorem contains_of_count_one (pat : List Char) (hp : pat ≠ []) (l : List Char)
    (h : countGo pat l 0 0 = 1) : containsL pat l = true := by
  cases hb : containsL pat l
  · exfalso
    have h0 := (count_zero_iff_not_contains pat hp l).mpr hb
    omega
  · rfl

theorem prefix_drop_eq (pat t cs : List Char) (c : Char) (hp : pat ≠ [])
    (ht : pat ++ t = c :: cs) : cs.drop (pat.length - 1) = t := by
  cases pat with
  | nil => exact absurd rfl hp
  | cons p ps =>
    have ht2 : p :: (ps ++ t) = c :: cs := ht
    have h1 : ps ++ t = cs := (List.cons.inj ht2).2
    rw [← h1]
    simp only [List.length_cons, Nat.add_sub_cancel]
    exact List.drop_left ps t

theorem count_one_decompose (pat : List Char) (hp : pat ≠ []) :
    ∀ l : List Char, countGo pat l 0 0 = 1 →
      ∃ pre suf, l = pre ++ pat ++ suf ∧ countGo pat suf 0 0 = 0 ∧
        ∀ rep, replaceGo pat rep l 0 = pre ++ rep ++ suf := by
  intro l
  induction l with
  | nil => intro h; rw [countGo_nil] at h; cases h
  | cons c cs ih =>
    intro h
    rw [countGo_scan] at h
    by_cases hpre : pat.isPrefixOf (c :: cs) = true
    · rw [if_pos hpre, countGo_skip_drop, countGo_acc_shift] at h
      obtain ⟨t, ht⟩ := List.isPrefixOf_iff_prefix.mp hpre
      have hdrop : cs.drop (pat.length - 1) = t := prefix_drop_eq pat t cs c hp ht
      rw [hdrop] at h
      have hzero : countGo pat t 0 0 = 0 := by omega
      refine ⟨[], t, by rw [← ht]; rfl, hzero, ?_⟩
      intro rep
      rw [replaceGo_scan, if_pos hpre, replaceGo_skip_drop, hdrop]
      rw [replaceGo_of_not_contains pat rep t ((count_zero_iff_not_contains pat hp t).mp hzero)]
      rfl
    · rw [if_neg hpre] at h
      rcases ih h with ⟨pre, suf, heq, hzero, hrepl⟩
      refine ⟨c :: pre, suf, by rw [heq]; rfl, hzero, ?_⟩
      intro rep
      rw [replaceGo_scan, if_neg hpre, hrepl rep]
      rfl

theorem replace_sublist_aux (pat : List Char) (hp : pat ≠ []) (r : List Char) :
    ∀ (n : Nat) (l : List Char), l.length ≤ n →
      List.Sublist l (replaceGo pat (r ++ pat) l 0) := by
  intro n
  induction n with
  | zero =>
    intro l hl
    have hnil : l = [] := List.eq_nil_of_length_eq_zero (Nat.le_zero.mp hl)
    subst hnil
    rw [replaceGo_nil]
  | succ n ih =>
    intro l hl
    cases l with
    | nil => rw [replaceGo_nil]
    | cons c cs =>
      rw [replaceGo_scan]
      by_cases hpre : pat.isPrefixOf (c :: cs) = true
      · rw [if_pos hpre]
        obtain ⟨t, ht⟩ := List.isPrefixOf_iff_prefix.mp hpre
        have hdrop : cs.drop (pat.length - 1) = t := prefix_drop_eq pat t cs c hp ht
        rw [replaceGo_skip_drop, hdrop]
        have hlen : t.length ≤ n := by
          have hlth := congrArg List.length ht
          simp only [List.length_append, List.length_cons] at hlth
          have hple : 1 ≤ pat.length := by
            cases pat
            · exact absurd rfl hp
            · simp
          simp only [List.length_cons] at hl
          omega
        have hsub : List.Sublist (pat ++ t) ((r ++ pat) ++ replaceGo pat (r ++ pat) t 0) :=
          List.Sublist.append (List.sublist_append_right r pat) (ih t hlen)
        rw [ht] at hsub
        exact hsub
      · rw [if_neg hpre]
        exact List.Sublist.cons₂ c (ih cs (by simp only [List.length_cons] at hl; omega))

/-! ### Helper lemmas about the renderer -/

theorem strCat_data (a b : String) : (strCat a b).data = a.data ++ b.data := by
  show appendL a.data b.data = _
  exact appendL_eq _ _

theorem inject_cons_eq (html : String) (f0 : FacilityRecord) (rest : List FacilityRecord) :
    inject_facility_markers_into_html html (some (f0 :: rest)) =
      if containsSub html "</body>" then
        pyReplace html "</body>" (strCat (script_tag_for html (f0 :: rest)) "\n</body>")
      else strCat html (script_tag_for html (f0 :: rest)) := rfl

theorem inject_decompose (html : String) (f0 : FacilityRecord) (rest : List FacilityRecord)
    (hcnt : countGo "</body>".data html.data 0 0 = 1) :
    ∃ pre suf, html.data = pre ++ "</body>".data ++ suf ∧
      (inject_facility_markers_into_html html (some (f0 :: rest))).data =
        pre ++ (script_tag_for html (f0 :: rest)).data ++
          '\n' :: ("</body>".data ++ suf) := by
  have hpat : ("</body>".data : List Char) ≠ [] := by decide
  have hb : containsSub html "</body>" = true := contains_of_count_one _ hpat _ hcnt
  rcases count_one_decompose _ hpat html.data hcnt with ⟨pre, suf, heq, _, hrepl⟩
  refine ⟨pre, suf, heq, ?_⟩
  rw [inject_cons_eq, if_pos hb]
  show replaceGo "</body>".data
      (strCat (script_tag_for html (f0 :: rest)) "\n</body>").data html.data 0 = _
  rw [hrepl, strCat_data]
  have hnl : ("\n</body>".data : List Char) = '\n' :: "</body>".data := rfl
  rw [hnl]
  simp [List.append_assoc]

theorem inject_sublist (html : String) (dfo : Option (List FacilityRecord)) :
    List.Sublist html.data (inject_facility_markers_into_html html dfo).data := by
  cases dfo with
  | none => exact List.Sublist.refl _
  | some fs =>
    cases fs with
    | nil => exact List.Sublist.refl _
    | cons f0 rest =>
      rw [inject_cons_eq]
      by_cases hb : containsSub html "</body>" = true
      · rw [if_pos hb]
        show List.Sublist html.data
          (replaceGo "</body>".data
            (strCat (script_tag_for html (f0 :: rest)) "\n</body>").data html.data 0)
        have hsc : (strCat (script_tag_for html (f0 :: rest)) "\n</body>").data =
            ((script_tag_for html (f0 :: rest)).data ++ ['\n']) ++ "</body>".data := by
          rw [strCat_data, List.append_assoc]
          rfl
        rw [hsc]
        exact replace_sublist_aux "</body>".data (by decide) _ html.data.length html.data le_rfl
      · rw [if_neg hb]
        show List.Sublist html.data (appendL html.data (script_tag_for html (f0 :: rest)).data)
        rw [appendL_eq]
        exact List.sublist_append_left _ _

/-! ### C9: the renderer only inserts -/

/-- C9: the base document is a subsequence of the renderer output, for
every document and collection (nothing is deleted or reordered); when the
document carries exactly one closing-body marker, the script element is
inserted immediately before it, and when it carries none, the script
element is appended at the end. -/
theorem renderer_insertion_only (html : String) (dfo : Option (List FacilityRecord)) :
    List.Sublist html.data (inject_facility_markers_into_html html dfo).data ∧
    (∀ fs : List FacilityRecord, dfo = some fs → fs ≠ [] →
      (countSubstr "</body>" html = 1 →
        ∃ pre suf, html.data = pre ++ "</body>".data ++ suf ∧
          (inject_facility_markers_into_html html dfo).data =
            pre ++ (script_tag_for html fs).data ++ '\n' :: ("</body>".data ++ suf)) ∧
      (containsSub html "</body>" = false →
        inject_facility_markers_into_html html dfo = html ++ script_tag_for html fs)) := by
  refine ⟨inject_sublist html dfo, ?_⟩
  intro fs hdfo hne
  subst hdfo
  cases fs with
  | nil => exact absurd rfl hne
  | cons f0 rest =>
    constructor
    · intro hcnt
      exact inject_decompose html f0 rest hcnt
    · intro hb
      rw [inject_cons_eq, if_neg (by rw [hb]; exact Bool.false_ne_true)]
      rw [strCat_eq]

/-- Concrete base document with one closing-body marker. -/
def htmlW : String := "<html><body>Map</body></html>"

/-- C9 witness: on the concrete document and a one-facility collection,
the document is a subsequence of the output and the script element sits
immediately before the closing-body marker. -/
theorem renderer_insertion_only_check :
    List.Sublist htmlW.data
      (inject_facility_markers_into_html htmlW (some [recB])).data ∧
    ∃ pre suf, htmlW.data = pre ++ "</body>".data ++ suf ∧
      (inject_facility_markers_into_html htmlW (some [recB])).data =
        pre ++ (script_tag_for htmlW [recB]).data ++ '\n' :: ("</body>".data ++ suf) :=
  ⟨(renderer_insertion_only htmlW (some [recB])).1,
   ((renderer_insertion_only htmlW (some [recB])).2 [recB] rfl (by decide)).1 (by rfl)⟩

/-! ### C2: a second application duplicates the clustering layer -/

/-- Base document used for the double-application analysis. -/
def baseHtmlW : String := "<html><body></body></html>"

/-- Result of the first renderer application on `baseHtmlW`. -/
def docOnce : String := inject_facility_markers_into_html baseHtmlW (some [recW])

/-- Number of script fragments in a document that create the clustering
layer: occurrences of the call `L.markerClusterGroup(`. Each such
fragment builds a cluster group and adds it to the map
(`mapObj.addLayer(facilityCluster)` follows unconditionally in the
closing block). -/
def clusterLayerCount (s : String) : Nat :=
  countSubstr "L.markerClusterGroup(" s

/-! ### Append composition of the scanners -/

theorem isPrefixOf_append_extend (pat a b : List Char)
    (h : pat.isPrefixOf a = true) : pat.isPrefixOf (a ++ b) = true := by
  rw [List.isPrefixOf_iff_prefix] at h ⊢
  exact h.trans (List.prefix_append a b)

theorem nil_isPrefixOf (l : List Char) : ([] : List Char).isPrefixOf l = true := by
  cases l <;> rfl

theorem isPrefixOf_append_of_le (pat : List Char) :
    ∀ (a b : List Char), pat.length ≤ a.length →
      pat.isPrefixOf (a ++ b) = pat.isPrefixOf a := by
  induction pat with
  | nil => intro a b _; rw [nil_isPrefixOf, nil_isPrefixOf]
  | cons p ps ih =>
    intro a b hlen
    cases a with
    | nil => exfalso; simp at hlen
    | cons c cs =>
      show ((p == c) && ps.isPrefixOf (cs ++ b)) = ((p == c) && ps.isPrefixOf cs)
      rw [ih cs b (by simp only [List.length_cons] at hlen; omega)]

/-- Window hypothesis ruling out an occurrence of `pat` that straddles
the boundary between `a` and `b`. -/
def NoStraddle (pat a b : List Char) : Prop :=
  ∀ k : Nat, k < pat.length → 0 < k → k ≤ a.length →
    pat.isPrefixOf (a.drop (a.length - k) ++ b) = false

instance (pat a b : List Char) : Decidable (NoStraddle pat a b) := by
  unfold NoStraddle
  infer_instance

theorem noStraddle_tail (pat b : List Char) (c : Char) (cs : List Char)
    (hw : NoStraddle pat (c :: cs) b) : NoStraddle pat cs b := by
  intro k hk1 hk2 hk3
  have h := hw k hk1 hk2 (by simp only [List.length_cons]; omega)
  have hdr : (c :: cs).drop ((c :: cs).length - k) = cs.drop (cs.length - k) := by
    have : (c :: cs).length - k = (cs.length - k) + 1 := by
      simp only [List.length_cons]; omega
    rw [this, List.drop_succ_cons]
  rw [hdr] at h
  exact h

theorem noStraddle_suffix (pat b t : List Char)
    (hw : NoStraddle pat (pat ++ t) b) : NoStraddle pat t b := by
  intro k hk1 hk2 hk3
  have h := hw k hk1 hk2 (by simp only [List.length_append]; omega)
  have hdr : (pat ++ t).drop ((pat ++ t).length - k) = t.drop (t.length - k) := by
    have h1 : (pat ++ t).length - k = pat.length + (t.length - k) := by
      simp only [List.length_append]; omega
    rw [h1, ← List.drop_drop, List.drop_left]
  rw [hdr] at h
  exact h

theorem countGo_append (pat : List Char) (hp : pat ≠ []) :
    ∀ (n : Nat) (a b : List Char), a.length ≤ n → NoStraddle pat a b →
      countGo pat (a ++ b) 0 0 = countGo pat a 0 0 + countGo pat b 0 0 := by
  intro n
  induction n with
  | zero =>
    intro a b hl _
    have hnil : a = [] := List.eq_nil_of_length_eq_zero (Nat.le_zero.mp hl)
    subst hnil
    rw [List.nil_append, countGo_nil, Nat.zero_add]
  | succ n ih =>
    intro a b hl hw
    cases a with
    | nil => rw [List.nil_append, countGo_nil, Nat.zero_add]
    | cons c cs =>
      have hple : 1 ≤ pat.length := by
        cases pat
        · exact absurd rfl hp
        · simp
      by_cases hm : pat.isPrefixOf ((c :: cs) ++ b) = true
      · by_cases hfit : pat.length ≤ (c :: cs).length
        · have hpa : pat.isPrefixOf (c :: cs) = true := by
            rw [← isPrefixOf_append_of_le pat (c :: cs) b hfit]; exact hm
          obtain ⟨t, ht⟩ := List.isPrefixOf_iff_prefix.mp hpa
          have hdrop : cs.drop (pat.length - 1) = t := prefix_drop_eq pat t cs c hp ht
          have hlens : pat.length + t.length = cs.length + 1 := by
            have := congrArg List.length ht
            simpa [List.length_append] using this
          have hm2 : pat.isPrefixOf (c :: (cs ++ b)) = true := hm
          have hLHS : countGo pat ((c :: cs) ++ b) 0 0 = 1 + countGo pat (t ++ b) 0 0 := by
            show countGo pat (c :: (cs ++ b)) 0 0 = _
            rw [countGo_scan, if_pos hm2, countGo_skip_drop, countGo_acc_shift]
            rw [List.drop_append_of_le_length (by simp only [List.length_cons] at hfit; omega)]
            rw [hdrop]
          have hRHS : countGo pat (c :: cs) 0 0 = 1 + countGo pat t 0 0 := by
            rw [countGo_scan, if_pos hpa, countGo_skip_drop, countGo_acc_shift, hdrop]
          have hwt : NoStraddle pat t b := by
            have hw2 : NoStraddle pat (pat ++ t) b := by rw [ht]; exact hw
            exact noStraddle_suffix pat b t hw2
          have hlt : t.length ≤ n := by
            simp only [List.length_cons] at hl
            omega
          rw [hLHS, hRHS, ih t b hlt hwt]
          omega
        · exfalso
          have hk := hw (c :: cs).length (by omega) (by simp) le_rfl
          rw [Nat.sub_self, List.drop_zero] at hk
          rw [hm] at hk
          cases hk
      · have hpa : pat.isPrefixOf (c :: cs) = false := by
          cases hb2 : pat.isPrefixOf (c :: cs)
          · rfl
          · exact absurd (isPrefixOf_append_extend pat (c :: cs) b hb2) hm
        have hm2 : ¬ pat.isPrefixOf (c :: (cs ++ b)) = true := hm
        have hstep : countGo pat ((c :: cs) ++ b) 0 0 = countGo pat (cs ++ b) 0 0 := by
          show countGo pat (c :: (cs ++ b)) 0 0 = _
          rw [countGo_scan, if_neg hm2]
        have hstep2 : countGo pat (c :: cs) 0 0 = countGo pat cs 0 0 := by
          rw [countGo_scan, if_neg (by rw [hpa]; exact Bool.false_ne_true)]
        rw [hstep, hstep2]
        exact ih cs b (by simp only [List.length_cons] at hl; omega) (noStraddle_tail pat b c cs hw)

theorem replaceGo_append (pat rep : List Char) (hp : pat ≠ []) :
    ∀ (n : Nat) (a b : List Char), a.length ≤ n → NoStraddle pat a b →
      replaceGo pat rep (a ++ b) 0 = replaceGo pat rep a 0 ++ replaceGo pat rep b 0 := by
  intro n
  induction n with
  | zero =>
    intro a b hl _
    have hnil : a = [] := List.eq_nil_of_length_eq_zero (Nat.le_zero.mp hl)
    subst hnil
    rw [List.nil_append, replaceGo_nil, List.nil_append]
  | succ n ih =>
    intro a b hl hw
    cases a with
    | nil => rw [List.nil_append, replaceGo_nil, List.nil_append]
    | cons c cs =>
      have hple : 1 ≤ pat.length := by
        cases pat
        · exact absurd rfl hp
        · simp
      by_cases hm : pat.isPrefixOf ((c :: cs) ++ b) = true
      · by_cases hfit : pat.length ≤ (c :: cs).length
        · have hpa : pat.isPrefixOf (c :: cs) = true := by
            rw [← isPrefixOf_append_of_le pat (c :: cs) b hfit]; exact hm
          obtain ⟨t, ht⟩ := List.isPrefixOf_iff_prefix.mp hpa
          have hdrop : cs.drop (pat.length - 1) = t := prefix_drop_eq pat t cs c hp ht
          have hm2 : pat.isPrefixOf (c :: (cs ++ b)) = true := hm
          have hLHS : replaceGo pat rep ((c :: cs) ++ b) 0 =
              rep ++ replaceGo pat rep (t ++ b) 0 := by
            show replaceGo pat rep (c :: (cs ++ b)) 0 = _
            rw [replaceGo_scan, if_pos hm2, replaceGo_skip_drop]
            rw [List.drop_append_of_le_length (by simp only [List.length_cons] at hfit; omega)]
            rw [hdrop]
          have hRHS : replaceGo pat rep (c :: cs) 0 = rep ++ replaceGo pat rep t 0 := by
            rw [replaceGo_scan, if_pos hpa, replaceGo_skip_drop, hdrop]
          have hwt : NoStraddle pat t b := by
            have hw2 : NoStraddle pat (pat ++ t) b := by rw [ht]; exact hw
            exact noStraddle_suffix pat b t hw2
          have hlens : pat.length + t.length = cs.length + 1 := by
            have := congrArg List.length ht
            simpa [List.length_append] using this
          have hlt : t.length ≤ n := by
            simp only [List.length_cons] at hl
            omega
          rw [hLHS, hRHS, ih t b hlt hwt, List.append_assoc]
        · exfalso
          have hk := hw (c :: cs).length (by omega) (by simp) le_rfl
          rw [Nat.sub_self, List.drop_zero] at hk
          rw [hm] at hk
          cases hk
      · have hpa : pat.isPrefixOf (c :: cs) = false := by
          cases hb2 : pat.isPrefixOf (c :: cs)
          · rfl
          · exact absurd (isPrefixOf_append_extend pat (c :: cs) b hb2) hm
        have hm2 : ¬ pat.isPrefixOf (c :: (cs ++ b)) = true := hm
        have hstep : replaceGo pat rep ((c :: cs) ++ b) 0 =
            c :: replaceGo pat rep (cs ++ b) 0 := by
          show replaceGo pat rep (c :: (cs ++ b)) 0 = _
          rw [replaceGo_scan, if_neg hm2]
        have hstep2 : replaceGo pat rep (c :: cs) 0 = c :: replaceGo pat rep cs 0 := by
          rw [replaceGo_scan, if_neg (by rw [hpa]; exact Bool.false_ne_true)]
        rw [hstep, hstep2]
        rw [ih cs b (by simp only [List.length_cons] at hl; omega) (noStraddle_tail pat b c cs hw)]
        rfl

theorem isPrefixOf_refl (pat : List Char) : pat.isPrefixOf pat = true := by
  rw [List.isPrefixOf_iff_prefix]

theorem replaceGo_head_match (pat rep x : List Char) (hp : pat ≠ []) :
    replaceGo pat rep (pat ++ x) 0 = rep ++ replaceGo pat rep x 0 := by
  cases pat with
  | nil => exact absurd rfl hp
  | cons p ps =>
    have hpre : (p :: ps).isPrefixOf (p :: (ps ++ x)) = true :=
      isPrefixOf_append_extend (p :: ps) (p :: ps) x (isPrefixOf_refl (p :: ps))
    show replaceGo (p :: ps) rep (p :: (ps ++ x)) 0 = _
    rw [replaceGo_scan, if_pos hpre, replaceGo_skip_drop]
    simp only [List.length_cons, Nat.add_sub_cancel]
    rw [List.drop_left]

/-- Boolean chain of `NoStraddle` conditions along a piecewise document
decomposition. -/
def chainOk (pat : List Char) : List (List Char) → Bool
  | [] => true
  | a :: rest => decide (NoStraddle pat a rest.flatten) && chainOk pat rest

theorem countGo_join (pat : List Char) (hp : pat ≠ []) :
    ∀ ps : List (List Char), chainOk pat ps = true →
      countGo pat ps.flatten 0 0 = (ps.map (fun p => countGo pat p 0 0)).sum := by
  intro ps
  induction ps with
  | nil => intro _; rfl
  | cons a rest ih =>
    intro h
    simp only [chainOk, Bool.and_eq_true, decide_eq_true_eq] at h
    have hjoin : (a :: rest).flatten = a ++ rest.flatten := by simp [List.flatten]
    rw [hjoin, countGo_append pat hp a.length a rest.flatten le_rfl h.1, ih h.2]
    simp

/-! ### C2: a second application duplicates the clustering layer -/

/-- Piecewise decomposition of the once-rendered document. -/
def docOncePieces : List (List Char) :=
  ["<html><body>".data, "<script>".data, clusterPluginBlock.data, "\n".data,
   clusterOpenBlock.data, "\n".data, (markerBlock 0 recW).data, "\n".data,
   closingBlock.data, "</script>".data, "\n</body>".data, "</html>".data]

/-- Piecewise decomposition of the script element of the second
application (the plugin block is skipped because `markercluster.css`
already occurs in the once-rendered document). -/
def scriptTwicePieces : List (List Char) :=
  ["<script>".data, clusterOpenBlock.data, "\n".data, (markerBlock 0 recW).data,
   "\n".data, closingBlock.data, "</script>".data]

theorem script_tag_base_eq : script_tag_for baseHtmlW [recW] =
    strCat "<script>"
      (strCat (strCat clusterPluginBlock (strCat "\n" (strCat clusterOpenBlock
        (strCat "\n" (strCat (markerBlock 0 recW) (strCat "\n" closingBlock))))))
        "</script>") := rfl

theorem script_tag_twice_eq : script_tag_for docOnce [recW] =
    strCat "<script>"
      (strCat (strCat clusterOpenBlock
        (strCat "\n" (strCat (markerBlock 0 recW) (strCat "\n" closingBlock))))
        "</script>") := by rfl

theorem docOnce_eq : docOnce = pyReplace baseHtmlW "</body>"
    (strCat (script_tag_for baseHtmlW [recW]) "\n</body>") := by
  show inject_facility_markers_into_html baseHtmlW (some [recW]) = _
  rw [inject_cons_eq]
  rw [if_pos (show containsSub baseHtmlW "</body>" = true from rfl)]

theorem docOnce_data_flat : docOnce.data = docOncePieces.flatten := by
  have h1 : docOnce.data = replaceGo "</body>".data
      (strCat (script_tag_for baseHtmlW [recW]) "\n</body>").data baseHtmlW.data 0 := by
    rw [docOnce_eq]
    rfl
  have hbase : baseHtmlW.data = "<html><body>".data ++ ("</body>".data ++ "</html>".data) := rfl
  rw [h1, hbase]
  rw [replaceGo_append "</body>".data _ (by decide) "<html><body>".data.length
      "<html><body>".data ("</body>".data ++ "</html>".data) le_rfl (by decide)]
  rw [replaceGo_of_not_contains _ _ _ (by decide)]
  rw [replaceGo_head_match _ _ _ (by decide)]
  rw [replaceGo_of_not_contains _ _ _ (by decide)]
  rw [strCat_data, script_tag_base_eq]
  simp only [strCat_data, docOncePieces, List.flatten]
  simp [List.append_assoc]

theorem docOnce_cluster_count : clusterLayerCount docOnce = 1 := by
  show countGo "L.markerClusterGroup(".data docOnce.data 0 0 = 1
  rw [docOnce_data_flat,
    countGo_join "L.markerClusterGroup(".data (by decide) docOncePieces (by decide)]
  rfl

theorem docOnce_body_count : countGo "</body>".data docOnce.data 0 0 = 1 := by
  rw [docOnce_data_flat,
    countGo_join "</body>".data (by decide) docOncePieces (by decide)]
  rfl

theorem script_twice_cluster_count :
    clusterLayerCount (script_tag_for docOnce [recW]) = 1 := by
  show countGo "L.markerClusterGroup(".data (script_tag_for docOnce [recW]).data 0 0 = 1
  have hflat : (script_tag_for docOnce [recW]).data = scriptTwicePieces.flatten := by
    rw [script_tag_twice_eq]
    simp only [strCat_data, scriptTwicePieces, List.flatten]
    simp [List.append_assoc]
  rw [hflat,
    countGo_join "L.markerClusterGroup(".data (by decide) scriptTwicePieces (by decide)]
  rfl

/-- C2, evaluation at the failing input: the base document has no
cluster-creating fragment, the once-rendered document has exactly one,
and a second application inserts a whole new script element, containing
another cluster-creating fragment, before the closing-body marker of the
once-rendered document: the twice-rendered document carries two
clustering overlay layers, not one. Only the plugin-loading block is
guarded by the `markercluster.css` presence check; the marker script
with its cluster group is appended again. -/
theorem renderer_double_apply_duplicates_cluster :
    clusterLayerCount baseHtmlW = 0 ∧
    clusterLayerCount docOnce = 1 ∧
    clusterLayerCount (script_tag_for docOnce [recW]) = 1 ∧
    ∃ pre suf,
      docOnce.data = pre ++ "</body>".data ++ suf ∧
      (inject_facility_markers_into_html docOnce (some [recW])).data =
        pre ++ (script_tag_for docOnce [recW]).data ++ '\n' :: ("</body>".data ++ suf) :=
  ⟨rfl, docOnce_cluster_count, script_twice_cluster_count,
    inject_decompose docOnce recW [] docOnce_body_count⟩
